import Mathlib

/-
Shallow embedding of varcode's variant annotation pipeline
(src/varcode/variant_annotator.py) together with the value objects and
helpers it imports.  Pure functions are translated directly; the mutable
loop of `describe_variant` is carried through an explicit `LoopState`;
Python `assert` failures become `Except.error` values.
-/

set_option maxHeartbeats 1000000

namespace Varcode

/-- Modelled from the spec: `common.reverse_complement` (common.py is not under
src/).  The spec says it reverses the string and complements each base
(A with T, C with G); ambiguous bases pass through unchanged. -/
def complement_base (c : Char) : Char :=
  if c = 'A' then 'T'
  else if c = 'T' then 'A'
  else if c = 'C' then 'G'
  else if c = 'G' then 'C'
  else c

/-- Modelled from the spec: reverse the DNA string and complement each base. -/
def reverse_complement (s : String) : String :=
  String.mk (s.data.reverse.map complement_base)

/-- Modelled from the spec: `variant.Variant` (variant.py is not under src/).
A variant is the immutable record contig, 1-based position, reference allele
and alternate allele. -/
structure Variant where
  contig : String
  pos : Nat
  ref : String
  alt : String
  deriving DecidableEq

/-- Modelled from the spec: the derived genomic end position,
`position + len(reference_allele) - 1`. -/
def Variant.end_pos (v : Variant) : Nat :=
  v.pos + v.ref.length - 1

/-- Modelled from the spec: a gene is used only through its stable identifier. -/
structure Gene where
  gene_id : String
  deriving DecidableEq

/-- Modelled from the spec: an exon exposes a contig, genomic start/end and an
`overlaps(contig, start, end)` test (provided by the external pyensembl
annotation provider, not part of this repository). -/
structure Exon where
  contig : String
  start : Nat
  stop : Nat
  deriving DecidableEq

/-- Modelled from the spec: interval-overlap test on the same contig. -/
def Exon.overlaps (e : Exon) (contig : String) (start stop : Nat) : Bool :=
  decide (e.contig = contig) && decide (e.start ≤ stop) && decide (start ≤ e.stop)

/-- Modelled from the spec: a transcript as consumed by the classifier —
identifier, parent gene id, biotype string, completeness flag, exon list,
strand, spliced-coordinate mapping, 5-prime UTR length in spliced
coordinates, and the spliced coding sequence. -/
structure Transcript where
  id : String
  gene_id : String
  biotype : String
  complete : Bool
  exons : List Exon
  on_backward_strand : Bool
  spliced_offset : Nat → Int
  first_start_codon_spliced_offset : Nat
  coding_sequence : String

/-- Modelled from the spec: `pyensembl.biotypes.is_coding_biotype` (external),
a coding vs non-coding classification of the biotype string. -/
def is_coding_biotype (biotype : String) : Bool :=
  biotype == "protein_coding"

/-- Modelled from the spec: the external genome annotation provider, consumed
through locus-based lookup of overlapping genes and transcripts. -/
structure EnsemblRelease where
  genes_at_locus : String → Nat → Nat → List Gene
  transcripts_at_locus : String → Nat → Nat → List Transcript

/-- Modelled from the spec: `annot.Annot` (annot.py is not under src/), the
result record of `describe_variant`.  The Python dicts are modelled as
association lists preserving insertion order. -/
structure Annot where
  variant : Variant
  variant_type : String
  genes : List Gene
  transcripts : List Transcript
  coding_effects : List (String × String)

/-- Python dict assignment `d[k] = v`: replace the value at an existing key in
place, otherwise append the new pair at the end (insertion order). -/
def dictInsert : List (String × String) → String → String → List (String × String)
  | [], k, v => [(k, v)]
  | (k2, v2) :: rest, k, v =>
      if k2 = k then (k, v) :: rest else (k2, v2) :: dictInsert rest k v

/-- Python dict lookup `d[k]`. -/
def dictLookup : List (String × String) → String → Option String
  | [], _ => none
  | (k2, v) :: rest, k => if k2 = k then some v else dictLookup rest k

/-- Errors corresponding to the `assert` statements of
`variant_annotator.py`; an assertion failure aborts the whole
`describe_variant` call. -/
inductive VarError where
  | noTranscripts (contig : String) (pos : Nat) (ref alt : String)
  | coordinateOutOfRange (offset : Int) (transcript_id : String)
  | referenceMismatch (expected observed : String) (start_offset end_offset : Int)
  deriving DecidableEq

/-- `VariantAnnotator.overlaps_any_exon` (variant_annotator.py lines 66-69). -/
def overlaps_any_exon (t : Transcript) (contig : String) (start stop : Nat) : Bool :=
  t.exons.any (fun e => e.overlaps contig start stop)

/-- `VariantAnnotator.group_by` (variant_annotator.py lines 71-79), specialised
to grouping transcripts by a key function (the source passes the attribute
name "gene_id"). -/
def group_by_insert (groups : List (String × List Transcript)) (key : String)
    (t : Transcript) : List (String × List Transcript) :=
  match groups with
  | [] => [(key, [t])]
  | (k2, g) :: rest =>
      if k2 = key then (k2, g ++ [t]) :: rest
      else (k2, g) :: group_by_insert rest key t

/-- The accumulating loop of `VariantAnnotator.group_by`. -/
def group_by_aux : List (String × List Transcript) → List Transcript →
    List (String × List Transcript)
  | groups, [] => groups
  | groups, t :: rest => group_by_aux (group_by_insert groups t.gene_id t) rest

/-- `VariantAnnotator.group_by` applied over the record list in order. -/
def group_by (records : List Transcript) : List (String × List Transcript) :=
  group_by_aux [] records

/-- `VariantAnnotator.make_intergenic` (variant_annotator.py lines 49-55). -/
def make_intergenic (variant : Variant) : Annot :=
  { variant := variant
    variant_type := "intergenic"
    genes := []
    transcripts := []
    coding_effects := [] }

/-- `VariantAnnotator.make_intronic` (variant_annotator.py lines 58-64). -/
def make_intronic (variant : Variant) (genes : List Gene)
    (transcripts : List Transcript) : Annot :=
  { variant := variant
    variant_type := "intronic"
    genes := genes
    transcripts := transcripts
    coding_effects := [] }

/-- Python slice index normalisation: a negative index counts from the end of
the string (clamped at 0), a non-negative index is clamped at the length. -/
def pySliceIdx (n : Nat) (i : Int) : Nat :=
  if i < 0 then ((n : Int) + i).toNat else min i.toNat n

/-- Python string slice `s[i:j]`. -/
def pySlice (s : String) (i j : Int) : String :=
  let a := pySliceIdx s.length i
  let b := pySliceIdx s.length j
  String.mk ((s.data.drop a).take (b - a))

/-- Strand-aware reference allele (variant_annotator.py lines 120-125): the
reverse complement on the backward strand, the variant's own allele
otherwise. -/
def strand_ref (variant : Variant) (t : Transcript) : String :=
  if t.on_backward_strand then reverse_complement variant.ref else variant.ref

/-- Strand-aware alternate allele (variant_annotator.py lines 120-125). -/
def strand_alt (variant : Variant) (t : Transcript) : String :=
  if t.on_backward_strand then reverse_complement variant.alt else variant.alt

/-- `start_offset_with_utr5` (variant_annotator.py lines 130-134): the smaller
of the two spliced offsets of the variant's start and end positions. -/
def start_offset_with_utr5 (variant : Variant) (t : Transcript) : Int :=
  min (t.spliced_offset variant.pos) (t.spliced_offset variant.end_pos)

/-- `end_offset_with_utr5` (variant_annotator.py lines 130-135). -/
def end_offset_with_utr5 (variant : Variant) (t : Transcript) : Int :=
  max (t.spliced_offset variant.pos) (t.spliced_offset variant.end_pos)

/-- `start_offset` (variant_annotator.py line 148): spliced offset minus the
5-prime UTR length. -/
def start_offset (variant : Variant) (t : Transcript) : Int :=
  start_offset_with_utr5 variant t - t.first_start_codon_spliced_offset

/-- `end_offset` (variant_annotator.py line 149). -/
def end_offset (variant : Variant) (t : Transcript) : Int :=
  end_offset_with_utr5 variant t - t.first_start_codon_spliced_offset

/-- `original_dna` (variant_annotator.py line 155): the coding-sequence slice
`seq[start_offset : end_offset + 1]` with Python slice semantics. -/
def original_dna (variant : Variant) (t : Transcript) : String :=
  pySlice t.coding_sequence (start_offset variant t) (end_offset variant t + 1)

/-- `aa_position` (variant_annotator.py line 166): Python 2 integer division
`start_offset / 3` (floor division). -/
def aa_position (variant : Variant) (t : Transcript) : Int :=
  Int.fdiv (start_offset variant t) 3

/-- The per-transcript effect string of the coding branch
(variant_annotator.py lines 166-173).  The frameshift test transcribes the
Python expression `len(original_dna) - len(alt) % 3 != 0` with Python
operator precedence, i.e. `len(original_dna) - (len(alt) % 3) != 0`. -/
def coding_descriptor (variant : Variant) (t : Transcript) : String :=
  if ((original_dna variant t).length : Int) - (((strand_alt variant t).length : Int) % 3) ≠ 0 then
    toString (aa_position variant t) ++ "fs"
  else
    "V" ++ toString (aa_position variant t) ++ "E"

/-- The Python string literal for the 5-prime UTR category. -/
def utr5_label : String := "5\x27 UTR"

/-- The Python string literal for the 3-prime UTR category. -/
def utr3_label : String := "3\x27 UTR"

/-- The state threaded through the `for transcript in overlapping_transcripts`
loop of `describe_variant`: the local names `ref` and `alt` (which lines
120-125 rebind) and the accumulating `protein_variants` dict. -/
structure LoopState where
  refA : String
  altA : String
  effects : List (String × String)
  deriving DecidableEq

/-- One iteration of the classification loop of `describe_variant`
(variant_annotator.py lines 103-174).  Each guarded early exit (`continue`)
records exactly one category for the transcript; the `assert` statements
become errors aborting the call. -/
def classify_transcript (variant : Variant) (st : LoopState) (t : Transcript) :
    Except VarError LoopState :=
  if !(is_coding_biotype t.biotype) then
    .ok ⟨st.refA, st.altA, dictInsert st.effects t.id "non-coding"⟩
  else if !t.complete then
    .ok ⟨st.refA, st.altA, dictInsert st.effects t.id "incomplete"⟩
  else if !(overlaps_any_exon t variant.contig variant.pos variant.end_pos) then
    .ok ⟨st.refA, st.altA, dictInsert st.effects t.id "intronic"⟩
  else
    let ref := strand_ref variant t
    let alt := strand_alt variant t
    if start_offset_with_utr5 variant t < 0 then
      .error (.coordinateOutOfRange (start_offset_with_utr5 variant t) t.id)
    else if end_offset_with_utr5 variant t < 0 then
      .error (.coordinateOutOfRange (end_offset_with_utr5 variant t) t.id)
    else if (t.first_start_codon_spliced_offset : Int) ≥ start_offset_with_utr5 variant t ∧
            (t.first_start_codon_spliced_offset : Int) ≥ end_offset_with_utr5 variant t then
      .ok ⟨ref, alt, dictInsert st.effects t.id utr5_label⟩
    else if start_offset variant t ≥ (t.coding_sequence.length : Int) ∧
            end_offset variant t ≥ (t.coding_sequence.length : Int) then
      .ok ⟨ref, alt, dictInsert st.effects t.id utr3_label⟩
    else if original_dna variant t = ref then
      .ok ⟨ref, alt,
           dictInsert st.effects t.id ("coding " ++ coding_descriptor variant t)⟩
    else
      .error (.referenceMismatch ref (original_dna variant t)
        (start_offset variant t) (end_offset variant t))

/-- The whole classification loop, folding `classify_transcript` over the
overlapping transcripts; the first error aborts. -/
def classify_transcripts (variant : Variant) :
    List Transcript → LoopState → Except VarError LoopState
  | [], st => .ok st
  | t :: rest, st =>
      match classify_transcript variant st t with
      | .error e => .error e
      | .ok st2 => classify_transcripts variant rest st2

/-- Line 177's `descriptor.startswith("coding")` test. -/
def is_coding_descriptor (s : String) : Bool :=
  "coding".data.isPrefixOf s.data

/-- `VariantAnnotator` holds the pyensembl release used for lookups. -/
structure VariantAnnotator where
  ensembl : EnsemblRelease

/-- `VariantAnnotator.describe_variant` (variant_annotator.py lines 81-191). -/
def describe_variant (ann : VariantAnnotator) (contig : String) (pos : Nat)
    (ref alt : String) : Except VarError Annot :=
  let variant : Variant := { contig := contig, pos := pos, ref := ref, alt := alt }
  let end_pos := variant.end_pos
  let overlapping_genes := ann.ensembl.genes_at_locus contig pos end_pos
  if overlapping_genes.length = 0 then
    .ok (make_intergenic variant)
  else
    let overlapping_transcripts := ann.ensembl.transcripts_at_locus contig pos end_pos
    if overlapping_transcripts.length = 0 then
      .error (.noTranscripts contig pos ref alt)
    else
      let _overlapping_transcript_groups := group_by overlapping_transcripts
      match classify_transcripts variant overlapping_transcripts ⟨ref, alt, []⟩ with
      | .error e => .error e
      | .ok st =>
          let n_coding := (st.effects.filter (fun p => is_coding_descriptor p.2)).length
          let variant_type := if n_coding > 0 then "coding" else "non-coding"
          .ok { variant := variant
                variant_type := variant_type
                genes := overlapping_genes
                transcripts := overlapping_transcripts
                coding_effects := st.effects }

/-!  Concrete fixtures used to witness the general theorems below. -/

/-- A forward-strand, complete, protein-coding transcript whose exon covers
the sample locus; its coding sequence holds "ATG" at coding offset 3. -/
def t1 : Transcript :=
  { id := "T1"
    gene_id := "G1"
    biotype := "protein_coding"
    complete := true
    exons := [⟨"1", 5, 100⟩]
    on_backward_strand := false
    spliced_offset := fun p => (p : Int) - 7
    first_start_codon_spliced_offset := 0
    coding_sequence := "CCCATGAAA" }

/-- Like `t1` but on the backward strand, with "T" at coding offset 3. -/
def t3 : Transcript :=
  { id := "T3"
    gene_id := "G1"
    biotype := "protein_coding"
    complete := true
    exons := [⟨"1", 5, 100⟩]
    on_backward_strand := true
    spliced_offset := fun p => (p : Int) - 7
    first_start_codon_spliced_offset := 0
    coding_sequence := "CCCTTGAAA" }

/-- A coding, complete transcript whose single exon lies away from the sample
locus, so a variant at position 10 falls in an intron. -/
def t2 : Transcript :=
  { id := "T2"
    gene_id := "G1"
    biotype := "protein_coding"
    complete := true
    exons := [⟨"1", 50, 100⟩]
    on_backward_strand := false
    spliced_offset := fun p => (p : Int) - 7
    first_start_codon_spliced_offset := 0
    coding_sequence := "CCCATGAAA" }

/-- A non-coding-biotype transcript whose single exon lies away from the
sample locus. -/
def tN : Transcript :=
  { id := "TN"
    gene_id := "G1"
    biotype := "lincRNA"
    complete := true
    exons := [⟨"1", 50, 100⟩]
    on_backward_strand := false
    spliced_offset := fun p => (p : Int) - 7
    first_start_codon_spliced_offset := 0
    coding_sequence := "CCCATGAAA" }

/-- A provider whose locus queries return one gene and the transcript `t1`. -/
def annotator1 : VariantAnnotator :=
  ⟨{ genes_at_locus := fun _ _ _ => [⟨"G1"⟩]
     transcripts_at_locus := fun _ _ _ => [t1] }⟩

/-- A provider returning one gene and the backward-strand transcript `t3`. -/
def annotator3 : VariantAnnotator :=
  ⟨{ genes_at_locus := fun _ _ _ => [⟨"G1"⟩]
     transcripts_at_locus := fun _ _ _ => [t3] }⟩

/-- A provider returning one gene and the non-coding transcript `tN`. -/
def annotatorN : VariantAnnotator :=
  ⟨{ genes_at_locus := fun _ _ _ => [⟨"G1"⟩]
     transcripts_at_locus := fun _ _ _ => [tN] }⟩

/-- A provider with no gene annotation at any locus. -/
def annotator0 : VariantAnnotator :=
  ⟨{ genes_at_locus := fun _ _ _ => []
     transcripts_at_locus := fun _ _ _ => [] }⟩

/-- A provider claiming gene coverage backed by no transcript. -/
def annotatorInconsistent : VariantAnnotator :=
  ⟨{ genes_at_locus := fun _ _ _ => [⟨"G1"⟩]
     transcripts_at_locus := fun _ _ _ => [] }⟩

/-- The `describe_variant annotator1 "1" 10 "A" "G"` result, written out. -/
def annot1 : Annot :=
  { variant := ⟨"1", 10, "A", "G"⟩
    variant_type := "coding"
    genes := [⟨"G1"⟩]
    transcripts := [t1]
    coding_effects := [("T1", "coding V1E")] }

/-! Helper lemmas about the Python-dict model. -/

theorem dictLookup_dictInsert (d : List (String × String)) (k v : String) :
    dictLookup (dictInsert d k v) k = some v := by
  induction d with
  | nil => simp [dictInsert, dictLookup]
  | cons p rest ih =>
      obtain ⟨k2, v2⟩ := p
      by_cases hk : k2 = k
      · simp [dictInsert, dictLookup, hk]
      · simp [dictInsert, dictLookup, hk, ih]

theorem dictInsert_of_not_mem {d : List (String × String)} {k : String} (v : String)
    (h : k ∉ d.map Prod.fst) : dictInsert d k v = d ++ [(k, v)] := by
  induction d with
  | nil => rfl
  | cons p rest ih =>
      obtain ⟨k2, v2⟩ := p
      simp only [List.map_cons, List.mem_cons] at h
      push_neg at h
      simp [dictInsert, Ne.symm h.1, ih h.2]

theorem mem_dictInsert {d : List (String × String)} {k v : String} {p : String × String}
    (h : p ∈ dictInsert d k v) : p ∈ d ∨ p = (k, v) := by
  induction d with
  | nil => simpa [dictInsert] using h
  | cons q rest ih =>
      obtain ⟨k2, v2⟩ := q
      by_cases hk : k2 = k
      · simp only [dictInsert, if_pos hk, List.mem_cons] at h
        rcases h with h | h
        · exact Or.inr h
        · exact Or.inl (List.mem_cons_of_mem _ h)
      · simp only [dictInsert, if_neg hk, List.mem_cons] at h
        rcases h with h | h
        · exact Or.inl (h ▸ List.mem_cons_self _ _)
        · rcases ih h with h2 | h2
          · exact Or.inl (List.mem_cons_of_mem _ h2)
          · exact Or.inr h2

/-! Helper lemmas about the per-transcript classifier. -/

/-- The closed set of effect strings a single loop iteration can record. -/
def effect_value_shape (variant : Variant) (t : Transcript) (d : String) : Prop :=
  d = "non-coding" ∨ d = "incomplete" ∨ d = "intronic" ∨ d = utr5_label ∨
    d = utr3_label ∨ d = "coding " ++ coding_descriptor variant t

theorem classify_transcript_ok_effects {variant : Variant} {st : LoopState}
    {t : Transcript} {st2 : LoopState}
    (h : classify_transcript variant st t = .ok st2) :
    ∃ d, st2.effects = dictInsert st.effects t.id d ∧ effect_value_shape variant t d := by
  simp only [classify_transcript] at h
  split_ifs at h <;> simp only [Except.ok.injEq] at h <;>
    exact ⟨_, by rw [← h], by simp [effect_value_shape]⟩

theorem classify_transcript_exonic (variant : Variant) (st : LoopState) (t : Transcript)
    (h1 : is_coding_biotype t.biotype = true)
    (h2 : t.complete = true)
    (h3 : overlaps_any_exon t variant.contig variant.pos variant.end_pos = true)
    (h4 : 0 ≤ start_offset_with_utr5 variant t)
    (h5 : 0 ≤ end_offset_with_utr5 variant t)
    (h6 : ¬((t.first_start_codon_spliced_offset : Int) ≥ start_offset_with_utr5 variant t ∧
            (t.first_start_codon_spliced_offset : Int) ≥ end_offset_with_utr5 variant t))
    (h7 : ¬(start_offset variant t ≥ (t.coding_sequence.length : Int) ∧
            end_offset variant t ≥ (t.coding_sequence.length : Int))) :
    classify_transcript variant st t =
      if original_dna variant t = strand_ref variant t then
        .ok ⟨strand_ref variant t, strand_alt variant t,
             dictInsert st.effects t.id ("coding " ++ coding_descriptor variant t)⟩
      else
        .error (.referenceMismatch (strand_ref variant t) (original_dna variant t)
          (start_offset variant t) (end_offset variant t)) := by
  simp only [classify_transcript, h1, h2, h3, Bool.not_true, Bool.false_eq_true, if_false,
    if_neg (not_lt.mpr h4), if_neg (not_lt.mpr h5), if_neg h6, if_neg h7]

theorem classify_transcripts_keys (variant : Variant) (ts : List Transcript) :
    ∀ (st st2 : LoopState),
      (∀ t ∈ ts, t.id ∉ st.effects.map Prod.fst) →
      (ts.map Transcript.id).Nodup →
      classify_transcripts variant ts st = .ok st2 →
      st2.effects.map Prod.fst = st.effects.map Prod.fst ++ ts.map Transcript.id := by
  induction ts with
  | nil =>
      intro st st2 _ _ h
      simp only [classify_transcripts, Except.ok.injEq] at h
      simp [← h]
  | cons t rest ih =>
      intro st st2 hfresh hnodup h
      simp only [classify_transcripts] at h
      cases hc : classify_transcript variant st t with
      | error e => rw [hc] at h; cases h
      | ok st1 =>
          rw [hc] at h
          obtain ⟨d, hd, _⟩ := classify_transcript_ok_effects hc
          have hid : t.id ∉ st.effects.map Prod.fst :=
            hfresh t (List.mem_cons_self _ _)
          have hkeys1 : st1.effects.map Prod.fst = st.effects.map Prod.fst ++ [t.id] := by
            rw [hd, dictInsert_of_not_mem d hid]
            simp
          simp only [List.map_cons, List.nodup_cons] at hnodup
          have hfresh1 : ∀ t2 ∈ rest, t2.id ∉ st1.effects.map Prod.fst := by
            intro t2 ht2
            rw [hkeys1]
            simp only [List.mem_append, List.mem_singleton]
            push_neg
            refine ⟨hfresh t2 (List.mem_cons_of_mem _ ht2), ?_⟩
            intro heq
            exact hnodup.1 (heq ▸ List.mem_map_of_mem Transcript.id ht2)
          rw [ih st1 st2 hfresh1 hnodup.2 h, hkeys1]
          simp

theorem classify_transcripts_values (variant : Variant) (ts : List Transcript) :
    ∀ (st st2 : LoopState),
      classify_transcripts variant ts st = .ok st2 →
      ∀ p ∈ st2.effects, p ∈ st.effects ∨ ∃ t ∈ ts, effect_value_shape variant t p.2 := by
  induction ts with
  | nil =>
      intro st st2 h p hp
      simp only [classify_transcripts, Except.ok.injEq] at h
      exact Or.inl (h ▸ hp)
  | cons t rest ih =>
      intro st st2 h p hp
      simp only [classify_transcripts] at h
      cases hc : classify_transcript variant st t with
      | error e => rw [hc] at h; cases h
      | ok st1 =>
          rw [hc] at h
          rcases ih st1 st2 h p hp with hmem | ⟨t2, ht2, hshape⟩
          · obtain ⟨d, hd, hdshape⟩ := classify_transcript_ok_effects hc
            rw [hd] at hmem
            rcases mem_dictInsert hmem with hmem2 | rfl
            · exact Or.inl hmem2
            · exact Or.inr ⟨t, List.mem_cons_self _ _, hdshape⟩
          · exact Or.inr ⟨t2, List.mem_cons_of_mem _ ht2, hshape⟩

/-- Inversion of a successful `describe_variant` call that found at least
one overlapping gene: the result's fields come from the classification
loop started on the raw input alleles and an empty effects dict. -/
theorem describe_variant_ok_inv {ann : VariantAnnotator} {contig : String}
    {pos : Nat} {ref alt : String} {a : Annot}
    (h : describe_variant ann contig pos ref alt = .ok a)
    (hg : a.genes ≠ []) :
    ∃ st, classify_transcripts ⟨contig, pos, ref, alt⟩
        (ann.ensembl.transcripts_at_locus contig pos
          (Variant.end_pos ⟨contig, pos, ref, alt⟩)) ⟨ref, alt, []⟩ = .ok st ∧
      a.variant =  ⟨contig, pos, ref, alt⟩ ∧
      a.coding_effects = st.effects ∧
      a.genes = ann.ensembl.genes_at_locus contig pos
          (Variant.end_pos ⟨contig, pos, ref, alt⟩) ∧
      a.transcripts = ann.ensembl.transcripts_at_locus contig pos
          (Variant.end_pos ⟨contig, pos, ref, alt⟩) ∧
      a.variant_type =
        (if (st.effects.filter (fun p => is_coding_descriptor p.2)).length > 0
         then "coding" else "non-coding") := by
  simp only [describe_variant] at h
  split at h
  · exact absurd (congrArg Annot.genes (Except.ok.inj h)).symm (by simpa [make_intergenic] using hg)
  · split at h
    · cases h
    · split at h
      · cases h
      · next st hst =>
          refine ⟨st, hst, ?_⟩
          have := Except.ok.inj h
          rw [← this]
          simp

theorem is_coding_descriptor_coding (s : String) :
    is_coding_descriptor ("coding " ++ s) = true := by
  rw [is_coding_descriptor, List.isPrefixOf_iff_prefix, String.data_append]
  exact List.IsPrefix.trans ⟨[' '], rfl⟩ (List.prefix_append _ _)

theorem coding_string_ne {s x : String} (hx : is_coding_descriptor x = false) :
    "coding " ++ s ≠ x := by
  intro h
  rw [← h, is_coding_descriptor_coding] at hx
  cases hx

/-- C3: for every call where the provider reports no overlapping genes,
`describe_variant` returns normally (no error) with an "intergenic"
annotation whose gene, transcript and effect collections are all empty. -/
theorem intergenic_when_no_genes (ann : VariantAnnotator) (contig : String)
    (pos : Nat) (ref alt : String)
    (hg : ann.ensembl.genes_at_locus contig pos
        (Variant.end_pos ⟨contig, pos, ref, alt⟩) = []) :
    describe_variant ann contig pos ref alt =
      .ok { variant := ⟨contig, pos, ref, alt⟩
            variant_type := "intergenic"
            genes := []
            transcripts := []
            coding_effects := [] } := by
  simp [describe_variant, hg, make_intergenic]

/-- Witness for C3 at a provider with no gene annotation anywhere. -/
theorem intergenic_when_no_genes_witness :
    describe_variant annotator0 "1" 100 "A" "T" =
      .ok { variant := ⟨"1", 100, "A", "T"⟩
            variant_type := "intergenic"
            genes := []
            transcripts := []
            coding_effects := [] } :=
  intergenic_when_no_genes annotator0 "1" 100 "A" "T" rfl

/-- C5: when at least one gene overlaps but the provider returns zero
transcripts, `describe_variant` fails with an error carrying the variant's
coordinates instead of returning an annotation. -/
theorem error_when_genes_without_transcripts (ann : VariantAnnotator)
    (contig : String) (pos : Nat) (ref alt : String)
    (hg : (ann.ensembl.genes_at_locus contig pos
        (Variant.end_pos ⟨contig, pos, ref, alt⟩)).length ≠ 0)
    (ht : ann.ensembl.transcripts_at_locus contig pos
        (Variant.end_pos ⟨contig, pos, ref, alt⟩) = []) :
    describe_variant ann contig pos ref alt =
      .error (.noTranscripts contig pos ref alt) := by
  simp only [describe_variant, ht]
  rw [if_neg hg]
  simp

/-- Witness for C5 at a provider claiming gene coverage with no transcript. -/
theorem error_when_genes_without_transcripts_witness :
    describe_variant annotatorInconsistent "1" 10 "A" "G" =
      .error (.noTranscripts "1" 10 "A" "G") :=
  error_when_genes_without_transcripts annotatorInconsistent "1" 10 "A" "G"
    (by decide) rfl

/-- C1 (evaluation at the failing input): the frameshift test of the source,
`len(original_dna) - len(alt) % 3 != 0`, binds as
`len(original_dna) - (len(alt) % 3)` by Python operator precedence, so the
three-base substitution ATG to CCC — whose net length change is 0, a
multiple of 3 — is still labelled a frameshift ("coding 1fs"), violating
the frame-length law. -/
theorem frameshift_precedence_bug_eval :
    (describe_variant annotator1 "1" 10 "ATG" "CCC").map Annot.coding_effects =
      .ok [("T1", "coding 1fs")] ∧
    ((("ATG" : String).length : Int) - (("CCC" : String).length : Int)) % 3 = 0 :=
  ⟨rfl, by decide⟩

/-- C2: whenever the coding branch does not take the frameshift path, the
recorded descriptor is the placeholder "V`position`E" with the position
`start_offset / 3` (floor division), independent of the actual codons of
the coding sequence. -/
theorem substitution_descriptor_placeholder (variant : Variant) (st : LoopState)
    (t : Transcript)
    (h1 : is_coding_biotype t.biotype = true)
    (h2 : t.complete = true)
    (h3 : overlaps_any_exon t variant.contig variant.pos variant.end_pos = true)
    (h4 : 0 ≤ start_offset_with_utr5 variant t)
    (h5 : 0 ≤ end_offset_with_utr5 variant t)
    (h6 : ¬((t.first_start_codon_spliced_offset : Int) ≥ start_offset_with_utr5 variant t ∧
            (t.first_start_codon_spliced_offset : Int) ≥ end_offset_with_utr5 variant t))
    (h7 : ¬(start_offset variant t ≥ (t.coding_sequence.length : Int) ∧
            end_offset variant t ≥ (t.coding_sequence.length : Int)))
    (h8 : original_dna variant t = strand_ref variant t)
    (h9 : ((original_dna variant t).length : Int) -
            (((strand_alt variant t).length : Int) % 3) = 0) :
    classify_transcript variant st t =
      .ok ⟨strand_ref variant t, strand_alt variant t,
           dictInsert st.effects t.id
             ("coding " ++ ("V" ++ toString (aa_position variant t) ++ "E"))⟩ ∧
    aa_position variant t = Int.fdiv (start_offset variant t) 3 := by
  refine ⟨?_, rfl⟩
  rw [classify_transcript_exonic variant st t h1 h2 h3 h4 h5 h6 h7, if_pos h8]
  have hdesc : coding_descriptor variant t =
      "V" ++ toString (aa_position variant t) ++ "E" := by
    rw [coding_descriptor, if_neg (by simp [h9])]
  rw [hdesc]

/-- Witness for C2: a single-base substitution in `t1` records "coding V1E". -/
theorem substitution_descriptor_placeholder_witness :
    classify_transcript ⟨"1", 10, "A", "G"⟩ ⟨"A", "G", []⟩ t1 =
      .ok ⟨"A", "G", [("T1", "coding V1E")]⟩ :=
  (substitution_descriptor_placeholder ⟨"1", 10, "A", "G"⟩ ⟨"A", "G", []⟩ t1
    (by decide) (by decide) (by decide) (by decide) (by decide) (by decide)
    (by decide) (by decide) (by decide)).1

/-- C7: on a transcript reaching the exonic branch, the alleles compared
against the coding sequence (and reported in a mismatch error, and recorded
in the loop state) are the reverse complements of the input alleles exactly
when the transcript lies on the backward strand, and the unchanged input
alleles on the forward strand. -/
theorem strand_aware_alleles (variant : Variant) (st : LoopState) (t : Transcript)
    (h1 : is_coding_biotype t.biotype = true)
    (h2 : t.complete = true)
    (h3 : overlaps_any_exon t variant.contig variant.pos variant.end_pos = true)
    (h4 : 0 ≤ start_offset_with_utr5 variant t)
    (h5 : 0 ≤ end_offset_with_utr5 variant t)
    (h6 : ¬((t.first_start_codon_spliced_offset : Int) ≥ start_offset_with_utr5 variant t ∧
            (t.first_start_codon_spliced_offset : Int) ≥ end_offset_with_utr5 variant t))
    (h7 : ¬(start_offset variant t ≥ (t.coding_sequence.length : Int) ∧
            end_offset variant t ≥ (t.coding_sequence.length : Int))) :
    (t.on_backward_strand = true →
       (original_dna variant t = reverse_complement variant.ref →
          classify_transcript variant st t =
            .ok ⟨reverse_complement variant.ref, reverse_complement variant.alt,
                 dictInsert st.effects t.id ("coding " ++ coding_descriptor variant t)⟩) ∧
       (original_dna variant t ≠ reverse_complement variant.ref →
          classify_transcript variant st t =
            .error (.referenceMismatch (reverse_complement variant.ref)
              (original_dna variant t) (start_offset variant t) (end_offset variant t)))) ∧
    (t.on_backward_strand = false →
       (original_dna variant t = variant.ref →
          classify_transcript variant st t =
            .ok ⟨variant.ref, variant.alt,
                 dictInsert st.effects t.id ("coding " ++ coding_descriptor variant t)⟩) ∧
       (original_dna variant t ≠ variant.ref →
          classify_transcript variant st t =
            .error (.referenceMismatch variant.ref (original_dna variant t)
              (start_offset variant t) (end_offset variant t)))) := by
  have hx := classify_transcript_exonic variant st t h1 h2 h3 h4 h5 h6 h7
  constructor
  · intro hb
    have hr : strand_ref variant t = reverse_complement variant.ref := by
      rw [strand_ref, if_pos hb]
    have ha : strand_alt variant t = reverse_complement variant.alt := by
      rw [strand_alt, if_pos hb]
    rw [hr, ha] at hx
    exact ⟨fun he => by rw [hx, if_pos he], fun he => by rw [hx, if_neg he]⟩
  · intro hb
    have hr : strand_ref variant t = variant.ref := by
      rw [strand_ref, hb]; rfl
    have ha : strand_alt variant t = variant.alt := by
      rw [strand_alt, hb]; rfl
    rw [hr, ha] at hx
    exact ⟨fun he => by rw [hx, if_pos he], fun he => by rw [hx, if_neg he]⟩

/-- Witness for C7: the backward-strand transcript `t3` is compared against
the reverse complements "T"/"C" of the input alleles "A"/"G". -/
theorem strand_aware_alleles_witness :
    classify_transcript ⟨"1", 10, "A", "G"⟩ ⟨"A", "G", []⟩ t3 =
      .ok ⟨"T", "C", [("T3", "coding V1E")]⟩ :=
  ((strand_aware_alleles ⟨"1", 10, "A", "G"⟩ ⟨"A", "G", []⟩ t3
      (by decide) (by decide) (by decide) (by decide) (by decide) (by decide)
      (by decide)).1 (by decide)).1 (by decide)

/-- C4: on a transcript that reaches the coding branch, the call fails with a
reference-sequence-mismatch error exactly when the extracted coding-sequence
slice differs from the strand-corrected reference allele; on agreement the
call returns an annotation recording a coding descriptor for the
transcript. -/
theorem reference_validation (ann : VariantAnnotator) (contig : String) (pos : Nat)
    (ref alt : String) (g : Gene) (t : Transcript)
    (hg : ann.ensembl.genes_at_locus contig pos
        (Variant.end_pos ⟨contig, pos, ref, alt⟩) = [g])
    (ht : ann.ensembl.transcripts_at_locus contig pos
        (Variant.end_pos ⟨contig, pos, ref, alt⟩) = [t])
    (h1 : is_coding_biotype t.biotype = true)
    (h2 : t.complete = true)
    (h3 : overlaps_any_exon t contig pos (Variant.end_pos ⟨contig, pos, ref, alt⟩) = true)
    (h4 : 0 ≤ start_offset_with_utr5 ⟨contig, pos, ref, alt⟩ t)
    (h5 : 0 ≤ end_offset_with_utr5 ⟨contig, pos, ref, alt⟩ t)
    (h6 : ¬((t.first_start_codon_spliced_offset : Int) ≥
              start_offset_with_utr5 ⟨contig, pos, ref, alt⟩ t ∧
            (t.first_start_codon_spliced_offset : Int) ≥
              end_offset_with_utr5 ⟨contig, pos, ref, alt⟩ t))
    (h7 : ¬(start_offset ⟨contig, pos, ref, alt⟩ t ≥ (t.coding_sequence.length : Int) ∧
            end_offset ⟨contig, pos, ref, alt⟩ t ≥ (t.coding_sequence.length : Int))) :
    (original_dna ⟨contig, pos, ref, alt⟩ t ≠ strand_ref ⟨contig, pos, ref, alt⟩ t →
       describe_variant ann contig pos ref alt =
         .error (.referenceMismatch (strand_ref ⟨contig, pos, ref, alt⟩ t)
           (original_dna ⟨contig, pos, ref, alt⟩ t)
           (start_offset ⟨contig, pos, ref, alt⟩ t)
           (end_offset ⟨contig, pos, ref, alt⟩ t))) ∧
    (original_dna ⟨contig, pos, ref, alt⟩ t = strand_ref ⟨contig, pos, ref, alt⟩ t →
       ∃ a, describe_variant ann contig pos ref alt = .ok a ∧
         dictLookup a.coding_effects t.id =
           some ("coding " ++ coding_descriptor ⟨contig, pos, ref, alt⟩ t)) := by
  have hx := classify_transcript_exonic ⟨contig, pos, ref, alt⟩ ⟨ref, alt, []⟩ t
    h1 h2 h3 h4 h5 h6 h7
  constructor
  · intro hne
    rw [if_neg hne] at hx
    simp only [describe_variant, hg, ht]
    simp [classify_transcripts, hx]
  · intro heq
    rw [if_pos heq] at hx
    refine ⟨{ variant := ⟨contig, pos, ref, alt⟩
              variant_type := "coding"
              genes := [g]
              transcripts := [t]
              coding_effects :=
                [(t.id, "coding " ++ coding_descriptor ⟨contig, pos, ref, alt⟩ t)] },
            ?_, ?_⟩
    · simp only [describe_variant, hg, ht]
      simp [classify_transcripts, hx, dictInsert, is_coding_descriptor_coding]
    · exact dictLookup_dictInsert [] t.id _

/-- Witness for C4: the slice "ATG" of `t1` differs from the expected allele
"AAA", so the whole call surfaces the mismatch with the offsets. -/
theorem reference_validation_witness :
    describe_variant annotator1 "1" 10 "AAA" "GGG" =
      .error (.referenceMismatch "AAA" "ATG" 3 5) :=
  (reference_validation annotator1 "1" 10 "AAA" "GGG" ⟨"G1"⟩ t1 rfl rfl
    (by decide) (by decide) (by decide) (by decide) (by decide) (by decide)
    (by decide)).1 (by decide)

/-- If a loop iteration succeeds and records "intronic" for the transcript,
the exon-overlap test failed: no other branch writes that string. -/
theorem classify_transcript_intronic_inv {variant : Variant} {st : LoopState}
    {t : Transcript} {st2 : LoopState}
    (hok : classify_transcript variant st t = .ok st2)
    (hlook : dictLookup st2.effects t.id = some "intronic") :
    overlaps_any_exon t variant.contig variant.pos variant.end_pos = false := by
  by_contra hovr
  rw [Bool.not_eq_false] at hovr
  simp only [classify_transcript, hovr, Bool.not_true, Bool.false_eq_true, if_false] at hok
  split_ifs at hok <;>
    first
      | (simp only [Except.ok.injEq] at hok;
         rw [← hok, dictLookup_dictInsert] at hlook;
         exact absurd (Option.some.inj hlook) (by decide))
      | (simp only [Except.ok.injEq] at hok;
         rw [← hok, dictLookup_dictInsert] at hlook;
         exact coding_string_ne (by decide) (Option.some.inj hlook))

/-- C6 (amended): for a transcript with a coding biotype and complete
annotation, the effect is "intronic" whenever the variant's span overlaps no
exon; and whenever a successful classification records "intronic", the exon
overlap test failed for every exon of that transcript. -/
theorem intronic_iff_no_exon_overlap (variant : Variant) (st : LoopState)
    (t : Transcript) :
    (is_coding_biotype t.biotype = true → t.complete = true →
       overlaps_any_exon t variant.contig variant.pos variant.end_pos = false →
       classify_transcript variant st t =
         .ok ⟨st.refA, st.altA, dictInsert st.effects t.id "intronic"⟩) ∧
    (∀ st2, classify_transcript variant st t = .ok st2 →
       dictLookup st2.effects t.id = some "intronic" →
       overlaps_any_exon t variant.contig variant.pos variant.end_pos = false) := by
  constructor
  · intro h1 h2 h3
    simp [classify_transcript, h1, h2, h3]
  · intro st2 hok hlook
    exact classify_transcript_intronic_inv hok hlook

/-- C6 (counterexample): the non-coding-biotype transcript `tN` overlaps the
variant but none of its exons do, yet the recorded effect is "non-coding",
not "intronic" — the no-exon-overlap condition alone does not force the
intronic category. -/
theorem no_exon_overlap_yet_not_intronic :
    overlaps_any_exon tN "1" 10 (Variant.end_pos ⟨"1", 10, "A", "G"⟩) = false ∧
    (describe_variant annotatorN "1" 10 "A" "G").map Annot.coding_effects =
      .ok [("TN", "non-coding")] ∧
    ("non-coding" : String) ≠ "intronic" :=
  ⟨by decide, rfl, by decide⟩

/-- Witness for C6 (amended): the coding, complete transcript `t2` whose only
exon lies away from the variant is classified "intronic". -/
theorem intronic_iff_no_exon_overlap_witness :
    classify_transcript ⟨"1", 10, "A", "G"⟩ ⟨"A", "G", []⟩ t2 =
      .ok ⟨"A", "G", [("T2", "intronic")]⟩ :=
  (intronic_iff_no_exon_overlap ⟨"1", 10, "A", "G"⟩ ⟨"A", "G", []⟩ t2).1
    (by decide) (by decide) (by decide)

/-- C8: for a successful call with at least one overlapping gene, the
variant-level type is "coding" exactly when some per-transcript descriptor
is a coding one (a descriptor of the frameshift/substitution coding branch),
and "non-coding" otherwise; every coding descriptor in the result comes from
the coding branch applied to one of the overlapping transcripts. -/
theorem variant_type_coding_iff (ann : VariantAnnotator) (contig : String)
    (pos : Nat) (ref alt : String) (a : Annot)
    (h : describe_variant ann contig pos ref alt = .ok a)
    (hg : a.genes ≠ []) :
    (a.variant_type = "coding" ↔
       ∃ p ∈ a.coding_effects, is_coding_descriptor p.2 = true) ∧
    ((¬∃ p ∈ a.coding_effects, is_coding_descriptor p.2 = true) →
       a.variant_type = "non-coding") ∧
    (∀ p ∈ a.coding_effects, is_coding_descriptor p.2 = true →
       ∃ t ∈ a.transcripts,
         p.2 = "coding " ++ coding_descriptor ⟨contig, pos, ref, alt⟩ t) := by
  obtain ⟨st, hcl, hv, heff, hgen, htr, hvt⟩ := describe_variant_ok_inv h hg
  have hiff : (st.effects.filter (fun p => is_coding_descriptor p.2)).length > 0 ↔
      ∃ p ∈ a.coding_effects, is_coding_descriptor p.2 = true := by
    rw [heff, gt_iff_lt, List.length_pos]
    constructor
    · intro hne
      obtain ⟨p, hp⟩ := List.exists_mem_of_ne_nil _ hne
      exact ⟨p, (List.mem_filter.mp hp).1, (List.mem_filter.mp hp).2⟩
    · rintro ⟨p, hp, hpc⟩ hnil
      exact absurd hpc (by simpa using List.filter_eq_nil_iff.mp hnil p hp)
  refine ⟨?_, ?_, ?_⟩
  · rw [hvt]
    constructor
    · intro hty
      by_cases hc : (st.effects.filter (fun p => is_coding_descriptor p.2)).length > 0
      · exact hiff.mp hc
      · rw [if_neg hc] at hty
        exact absurd hty (by decide)
    · intro hex
      rw [if_pos (hiff.mpr hex)]
  · intro hnex
    rw [hvt, if_neg (fun hc => hnex (hiff.mp hc))]
  · intro p hp hpc
    rw [heff] at hp
    rcases classify_transcripts_values ⟨contig, pos, ref, alt⟩ _ _ _ hcl p hp with
      hmem | ⟨t, htm, hshape⟩
    · cases hmem
    · refine ⟨t, by rw [htr]; exact htm, ?_⟩
      rcases hshape with hsh | hsh | hsh | hsh | hsh | hsh
      · rw [hsh] at hpc; exact absurd hpc (by decide)
      · rw [hsh] at hpc; exact absurd hpc (by decide)
      · rw [hsh] at hpc; exact absurd hpc (by decide)
      · rw [hsh] at hpc; exact absurd hpc (by decide)
      · rw [hsh] at hpc; exact absurd hpc (by decide)
      · exact hsh

/-- Witness for C8: at the concrete annotation `annot1` the coding descriptor
"coding V1E" makes the variant-level type "coding". -/
theorem variant_type_coding_iff_witness : annot1.variant_type = "coding" :=
  (variant_type_coding_iff annotator1 "1" 10 "A" "G" annot1 rfl
    (by decide)).1.mpr ⟨("T1", "coding V1E"), by decide, by decide⟩

/-- C9: in a successful call with overlapping genes, and transcripts carrying
pairwise-distinct identifiers, the keys of the effects dict are exactly the
identifiers of the overlapping transcripts, in order and without repetition —
every transcript receives exactly one category. -/
theorem coding_effects_exactly_once (ann : VariantAnnotator) (contig : String)
    (pos : Nat) (ref alt : String) (a : Annot)
    (h : describe_variant ann contig pos ref alt = .ok a)
    (hg : a.genes ≠ [])
    (hnodup : (a.transcripts.map Transcript.id).Nodup) :
    a.coding_effects.map Prod.fst = a.transcripts.map Transcript.id ∧
    (a.coding_effects.map Prod.fst).Nodup := by
  obtain ⟨st, hcl, hv, heff, hgen, htr, hvt⟩ := describe_variant_ok_inv h hg
  rw [htr] at hnodup
  have hkeys := classify_transcripts_keys ⟨contig, pos, ref, alt⟩ _ ⟨ref, alt, []⟩ st
    (by intro t2 ht2; simp) hnodup hcl
  constructor
  · rw [heff, htr, hkeys]; simp
  · rw [heff, hkeys]; simpa using hnodup

/-- Witness for C9 at the concrete annotation `annot1`. -/
theorem coding_effects_exactly_once_witness :
    annot1.coding_effects.map Prod.fst = annot1.transcripts.map Transcript.id ∧
    (annot1.coding_effects.map Prod.fst).Nodup :=
  coding_effects_exactly_once annotator1 "1" 10 "A" "G" annot1 rfl (by decide)
    (by decide)

/-- C10: a loop iteration never reads the rebindable `ref`/`alt` state — its
recorded effects (and any error) depend only on the variant, the transcript
and the accumulated dict, so rebinding by an earlier reverse-strand
transcript cannot alter a later comparison; on a forward-strand transcript
the comparison alleles are the variant's own alleles. -/
theorem alleles_fresh_per_transcript (variant : Variant) (t : Transcript)
    (st1 st2 : LoopState) (h : st1.effects = st2.effects) :
    (classify_transcript variant st1 t).map LoopState.effects =
      (classify_transcript variant st2 t).map LoopState.effects ∧
    (t.on_backward_strand = false →
      strand_ref variant t = variant.ref ∧ strand_alt variant t = variant.alt) := by
  constructor
  · simp only [classify_transcript]
    split_ifs <;> simp [Except.map, h]
  · intro hb
    constructor
    · rw [strand_ref, hb]; rfl
    · rw [strand_alt, hb]; rfl

/-- Witness for C10: two loop states with different stale alleles but the same
dict classify `t1` to the same effects. -/
theorem alleles_fresh_per_transcript_witness :
    (classify_transcript ⟨"1", 10, "A", "G"⟩ ⟨"T", "C", []⟩ t1).map LoopState.effects =
      (classify_transcript ⟨"1", 10, "A", "G"⟩ ⟨"A", "G", []⟩ t1).map LoopState.effects ∧
    (t1.on_backward_strand = false →
      strand_ref ⟨"1", 10, "A", "G"⟩ t1 = "A" ∧
      strand_alt ⟨"1", 10, "A", "G"⟩ t1 = "G") :=
  alleles_fresh_per_transcript ⟨"1", 10, "A", "G"⟩ t1 ⟨"T", "C", []⟩ ⟨"A", "G", []⟩ rfl

end Varcode
